import Mathlib

/-!
# Bet Hub — verification of the client-side market and loan logic

This file embeds the computations of the Bet Hub frontend
(`bet-hub/pages/LoanPage`, `MarketDetail`, `PublicDashboard`,
`PrivateDashboard`) in Lean and proves or refutes the stated
properties of the natural-language specification.

JavaScript numbers are modelled as rationals (`ℚ`); `Math.round` is
modelled by `jsRound` (round half towards positive infinity, which is
the JavaScript behaviour); JSON string fields that may be arrays,
parseable strings, unparseable strings or absent are modelled by the
sum type `JsField`.
-/

namespace BetHub

/-- JavaScript `Math.round`: rounds to the nearest integer, halves
towards positive infinity, i.e. `⌊x + 1/2⌋`. -/
def jsRound (q : ℚ) : ℤ := ⌊q + 1/2⌋

/-- A participant entry of a market's `participants` list:
`{ user, prediction, amount }`. -/
structure Participant where
  user : String
  prediction : String
  amount : ℚ
  deriving DecidableEq, Repr

/-! ## Loan page (`LoanPage` in `bet-hub`)

Lines 50–61: the trust-tier multiplier and the borrowing limit. -/

/-- The tier multiplier computed by `LoanPage` (lines 51–57):
cascading `if`/`else if` on the user's trust score. -/
def loanLimitMultiplier (userTrust : ℚ) : ℚ :=
  if userTrust < 50 then 0
  else if userTrust < 300 then 1/5
  else if userTrust < 500 then 1/2
  else if userTrust < 700 then 1
  else if userTrust < 850 then 3/2
  else 2

/-- The borrowing limit computed by `LoanPage` (lines 59–61):
`baseLimit = 2500`, `calculatedLimit = baseLimit * multiplier`,
`loanLimit = Math.min(calculatedLimit, 5000)`. -/
def loanLimit (userTrust : ℚ) : ℚ :=
  min (2500 * loanLimitMultiplier userTrust) 5000

/-- The tier multiplier as the specification words it: a step function on
half-open trust bands.  Stated independently of `loanLimitMultiplier`,
to be compared with it. -/
def specTierMultiplier (t : ℚ) : ℚ :=
  if t < 50 then 0
  else if 50 ≤ t ∧ t < 300 then 1/5
  else if 300 ≤ t ∧ t < 500 then 1/2
  else if 500 ≤ t ∧ t < 700 then 1
  else if 700 ≤ t ∧ t < 850 then 3/2
  else 2

/-! ## Loan handlers (`LoanPage.handleRepay`, lines 83–111, and
`LoanPage.handleBorrow`, lines 113–141)

Each handler either stops with an error message before any request is
made, or issues the corresponding API request.  The outcome is modelled
as a sum: `error msg` (the handler returned after `setMessage`) or
`request amount` (the handler reached `api.repayLoan` / `api.applyLoan`). -/

/-- Outcome of a loan-page handler. -/
inductive LoanAction where
  /-- The handler set an error message and returned; no request issued. -/
  | error (msg : String)
  /-- The handler issued the API request with this amount. -/
  | request (amount : ℚ)
  deriving DecidableEq, Repr

/-- `handleRepay` (lines 83–111): rejects non-positive amounts, then
amounts exceeding the available balance (`userMoney`); otherwise calls
`api.repayLoan`. -/
def handleRepay (userMoney repayAmount : ℚ) : LoanAction :=
  if repayAmount ≤ 0 then .error "Please enter a valid amount"
  else if repayAmount > userMoney then .error "Insufficient funds"
  else .request repayAmount

/-- `handleBorrow` (lines 113–141): rejects non-positive amounts, then
amounts that would push the loan balance over `loanLimit`; otherwise
calls `api.applyLoan`. -/
def handleBorrow (userLoan userTrust borrowAmount : ℚ) : LoanAction :=
  if borrowAmount ≤ 0 then .error "Please enter a valid amount"
  else if userLoan + borrowAmount > loanLimit userTrust then
    .error "Loan limit exceeded"
  else .request borrowAmount

/-- The repay form's MAX button (lines 219–226):
`setRepayAmount(userMoney > userLoan ? userLoan : userMoney)`. -/
def maxRepayPrefill (userMoney userLoan : ℚ) : ℚ :=
  if userMoney > userLoan then userLoan else userMoney

/-! ## Market statistics

`PublicDashboard.getStats` (lines 161–184) and the `outcomeStats`
computation of `MarketDetail` (lines 542–549). -/

/-- A record field that JavaScript code reads as
`Array.isArray(x) ? x : JSON.parse(x || default)`, restricted to the
cases on which the read yields a list: an array, a string that parses to
a list, a string whose parse throws, or a missing field.  A string whose
parse succeeds with a *non-array* value is the one remaining case; it is
modelled by the extended type `JsFieldV` below, because on it the real
`getStats` throws a `TypeError` after the `try`/`catch`. -/
inductive JsField (α : Type) where
  /-- The field already holds an array. -/
  | arr (xs : List α)
  /-- The field holds a string that `JSON.parse` turns into a list. -/
  | strOk (xs : List α)
  /-- The field holds a string on which `JSON.parse` throws. -/
  | strBad
  /-- The field is missing or null, so the `||` default string is parsed. -/
  | absent
  deriving DecidableEq, Repr

/-- Whether reading the field raises a `JSON.parse` exception. -/
def JsField.isBad {α : Type} : JsField α → Bool
  | .strBad => true
  | _ => false

/-- The list a non-throwing field evaluates to, where `dflt` is the
parse of the `||` default string used for a missing field. -/
def JsField.toList {α : Type} (dflt : List α) : JsField α → List α
  | .arr xs => xs
  | .strOk xs => xs
  | .strBad => []
  | .absent => dflt

/-- The `try`/`catch` block of `getStats` (lines 164–170): both fields
are parsed inside one `try`; if either parse throws, the `catch` resets
`participants` to `[]` and `outcomes` to `["Yes", "No"]`.  The defaults
for missing fields are `'[]'` and `'["Yes", "No"]'`. -/
def parsedLists (pf : JsField Participant) (of : JsField String) :
    List Participant × List String :=
  if pf.isBad || of.isBad then ([], ["Yes", "No"])
  else (pf.toList [], of.toList ["Yes", "No"])

/-- `PublicDashboard.getStats` (lines 161–184): one `(name, percent)`
entry per outcome; with no participants every percent is `0`, otherwise
the percent is `Math.round((count / total) * 100)` where `count` is the
number of participants predicting the outcome and `total` the number of
participants. -/
def getStats (pf : JsField Participant) (of : JsField String) :
    List (String × ℤ) :=
  let parsed := parsedLists pf of
  let participants := parsed.1
  let outcomes := parsed.2
  let total := participants.length
  if total = 0 then
    outcomes.map fun o => (o, 0)
  else
    outcomes.map fun o =>
      let count := (participants.filter fun p => p.prediction == o).length
      (o, jsRound ((count : ℚ) / (total : ℚ) * 100))

/-- One entry of `MarketDetail`'s `outcomeStats` (lines 542–549). -/
structure OutcomeStat where
  outcome : String
  count : ℕ
  percent : ℤ
  amount : ℚ
  deriving DecidableEq, Repr

/-- `MarketDetail`'s `outcomeStats` (lines 542–549): per outcome, the
summed stake `totalAmount`, and
`percent = bet.pool > 0 ? Math.round((totalAmount / bet.pool) * 100)
: (outcomes.length > 0 ? Math.round(100 / outcomes.length) : 0)`. -/
def outcomeStats (participants : List Participant) (outcomes : List String)
    (pool : ℚ) : List OutcomeStat :=
  outcomes.map fun outcome =>
    let totalAmount :=
      ((participants.filter fun p => p.prediction == outcome).map
        Participant.amount).sum
    let percent : ℤ :=
      if pool > 0 then jsRound (totalAmount / pool * 100)
      else if 0 < outcomes.length then jsRound (100 / (outcomes.length : ℚ))
      else 0
    { outcome := outcome
      count := (participants.filter fun p => p.prediction == outcome).length
      percent := percent
      amount := totalAmount }

/-- The spec's live-odds percentage for one outcome, from the spec's
words (for comparison): the sum of stake amounts on the outcome divided
by the pool total, as a rounded percentage, or the equal split `1/N`
when the pool total is `0`. -/
def specOddsPercent (participants : List Participant)
    (outcomes : List String) (pool : ℚ) (o : String) : ℤ :=
  if pool = 0 then jsRound (100 / (outcomes.length : ℚ))
  else
    jsRound
      ((((participants.filter fun p => p.prediction == o).map
          Participant.amount).sum / pool) * 100)

/-- The percentage the public dashboard actually displays, written with
`countP` (for comparison with `getStats`): the fraction of participants
predicting the outcome, or `0` when there are none. -/
def specCountPercent (participants : List Participant) (o : String) : ℤ :=
  if participants.length = 0 then 0
  else
    jsRound
      (((participants.countP fun p => p.prediction == o : ℕ) : ℚ) /
        (participants.length : ℚ) * 100)

/-- A `TypeError` thrown by `getStats` outside its `try` block. -/
inductive JsError where
  | typeError
  deriving DecidableEq, Repr

/-- The full range of a JSON-ish record field, extending `JsField` with
the case the `try`/`catch` does not protect against: a string whose
`JSON.parse` succeeds but yields a non-array value, e.g. `'null'`, `'5'`
or `'"abc"'` (a non-array, non-string field value behaves the same,
since `JSON.parse` first coerces it to a string).  On such a field the
parse does not throw, so the `catch` fallback is skipped, and the later
`.length`/`.filter`/`.map` access on the parsed value throws a
`TypeError` outside the `try`.  (The one benign non-array parse — a
participants string `'""'`, whose parsed value has `.length === 0` — is
not modelled.) -/
inductive JsFieldV (α : Type) where
  /-- The field already holds an array. -/
  | arr (xs : List α)
  /-- The field holds a string that `JSON.parse` turns into a list. -/
  | strOk (xs : List α)
  /-- The field holds a string on which `JSON.parse` throws. -/
  | strBad
  /-- The field holds a string that `JSON.parse` turns into a non-array
  value (`null`, a number, a nonempty string, …). -/
  | strNonList
  /-- The field is missing or null, so the `||` default string is parsed. -/
  | absent
  deriving DecidableEq, Repr

/-- Whether reading the field raises a `JSON.parse` exception. -/
def JsFieldV.isBad {α : Type} : JsFieldV α → Bool
  | .strBad => true
  | _ => false

/-- The parsed value of a non-throwing field: `some` a list, or `none`
for a non-array value; `dflt` is the parse of the `||` default string
used for a missing field. -/
def JsFieldV.toValue {α : Type} (dflt : List α) :
    JsFieldV α → Option (List α)
  | .arr xs => some xs
  | .strOk xs => some xs
  | .strBad => none
  | .strNonList => none
  | .absent => some dflt

/-- `JsField` viewed inside the extended field type. -/
def JsField.toV {α : Type} : JsField α → JsFieldV α
  | .arr xs => .arr xs
  | .strOk xs => .strOk xs
  | .strBad => .strBad
  | .absent => .absent

/-- The body of `getStats` after the `try`/`catch` (lines 172–183), on
the parsed field values: a non-array participants value makes
`participants.filter` throw a `TypeError` (its `.length` is not `0`),
a non-array outcomes value makes `outcomes.map` throw, and otherwise
the statistics list is computed exactly as in `getStats`. -/
def statsBody (participants : Option (List Participant))
    (outcomes : Option (List String)) :
    Except JsError (List (String × ℤ)) :=
  match participants with
  | none => .error .typeError
  | some ps =>
    match outcomes with
    | none => .error .typeError
    | some os =>
      if ps.length = 0 then .ok (os.map fun o => (o, 0))
      else
        .ok (os.map fun o =>
          (o, jsRound (((ps.filter fun p => p.prediction == o).length : ℚ) /
            (ps.length : ℚ) * 100)))

/-- `PublicDashboard.getStats` (lines 161–184) over the full field
range, with the `TypeError` escape made explicit: if either parse
throws, the `catch` substitutes `[]` / `["Yes", "No"]`; otherwise the
body runs on the parsed values and throws on a non-array one. -/
def getStatsChecked (pf : JsFieldV Participant) (of : JsFieldV String) :
    Except JsError (List (String × ℤ)) :=
  if pf.isBad || of.isBad then statsBody (some []) (some ["Yes", "No"])
  else statsBody (pf.toValue []) (of.toValue ["Yes", "No"])

/-- On every field pair `JsField` can express, the checked semantics
succeeds and agrees with `getStats`. -/
theorem getStatsChecked_toV (pf : JsField Participant)
    (of : JsField String) :
    getStatsChecked pf.toV of.toV = .ok (getStats pf of) := by
  cases pf <;> cases of <;>
    simp [getStatsChecked, getStats, parsedLists, statsBody, JsField.toV,
      JsField.isBad, JsFieldV.isBad, JsField.toList, JsFieldV.toValue,
      apply_ite Except.ok]

theorem jsRound_nonneg {q : ℚ} (h : 0 ≤ q) : 0 ≤ jsRound q :=
  Int.le_floor.2 (by push_cast; linarith)

theorem jsRound_le_hundred {q : ℚ} (h : q ≤ 100) : jsRound q ≤ 100 := by
  have h101 : jsRound q < 101 := Int.floor_lt.2 (by push_cast; linarith)
  omega

/-! ## Client-side return figures and the settlement formulas -/

/-- The total staked on one outcome: the
`participants.filter(p => p.prediction === o).reduce((sum, p) => sum +
p.amount, 0)` pattern used by `PoolRow` (lines 19–21). -/
def stakeOnOutcome (participants : List Participant) (outcome : String) : ℚ :=
  ((participants.filter fun p =>
      p.prediction == outcome).map Participant.amount).sum

/-- `PoolRow`'s "potential return" (`PrivateDashboard` lines 16–23): find
the user's participant entry (emails compared lowercased and trimmed);
if found, `sideTotal` is the total staked on the user's predicted
outcome and the return is `(amount / sideTotal) * pool.pool` when
`sideTotal > 0`, else `0`. -/
def potentialReturn (participants : List Participant) (userEmail : String)
    (poolTotal : ℚ) : ℚ :=
  match participants.find? fun p =>
      p.user.toLower.trim == userEmail.toLower.trim with
  | none => 0
  | some userBetObj =>
    let sideTotal := stakeOnOutcome participants userBetObj.prediction
    if sideTotal > 0 then userBetObj.amount / sideTotal * poolTotal else 0

/-- The quick-bet panel's "Est. Payout" (`MarketDetail` lines 948–969):
with the entered amount added to the chosen outcome's pool and the total
pool, `payout = (betAmount / newOutcomePool) * newTotalPool` (and the
amount itself if `newOutcomePool` is `0`). -/
def estPayout (betAmount outcomePool totalPool : ℚ) : ℚ :=
  let newOutcomePool := outcomePool + betAmount
  let newTotalPool := totalPool + betAmount
  if newOutcomePool = 0 then betAmount
  else betAmount / newOutcomePool * newTotalPool

/-- Modelled from the spec: the Settlement Engine (§4.3) runs in the
backend (`declare-result` in the FastAPI `main.py`), which is not among
the frontend sources.  On a declared result, each winner receives their
own stake back plus `(their stake / winPool) * winnerPool`, where the
winner pool is 60% of the losing pool (§4.3 steps 4–5). -/
def winnerPayout (stake winPool losePool : ℚ) : ℚ :=
  stake + stake / winPool * (3/5 * losePool)

/-- Modelled from the spec: each loser receives a refund of 40% of their
own stake (§4.3 step 4). -/
def loserRefund (stake : ℚ) : ℚ := 2/5 * stake

/-- The whole-pool share `stake / winPool * (winPool + losePool)` — the
quantity both client figures display — strictly exceeds the settlement
winner payout whenever stake, winning pool and losing pool are positive:
the gap is the 40% of the losing pool that settlement refunds to the
losers. -/
theorem winnerPayout_lt_wholePoolShare {stake winPool losePool : ℚ}
    (hstake : 0 < stake) (hwin : 0 < winPool) (hlose : 0 < losePool) :
    winnerPayout stake winPool losePool <
      stake / winPool * (winPool + losePool) := by
  have hr : 0 < stake / winPool := div_pos hstake hwin
  have key : stake / winPool * (winPool + losePool) =
      stake + stake / winPool * losePool := by
    rw [mul_add, div_mul_cancel₀ _ (ne_of_gt hwin)]
  have h35 : stake / winPool * (3/5 * losePool) <
      stake / winPool * losePool := by
    apply mul_lt_mul_of_pos_left _ hr
    linarith
  rw [key]
  unfold winnerPayout
  linarith

/-! ## Stake placement -/

/-- The error cases of `MarketDetail.handlePlaceBet` (lines 438–482),
as tagged values (the UI renders them as message strings). -/
inductive BetError where
  /-- `"Invalid amount."`: the input is NaN or non-positive. -/
  | invalidAmount
  /-- `"Minimum bet is $..."`, showing `bet.base_price || 10`. -/
  | belowMinimum (shownMinimum : ℚ)
  /-- `"Insufficient funds."` -/
  | insufficientFunds
  deriving DecidableEq, Repr

/-- Outcome of `handlePlaceBet`: an error shown before any request, or
the `api.joinBet` request actually issued. -/
inductive BetAction where
  | error (e : BetError)
  | request (amount : ℚ) (prediction : String)
  deriving DecidableEq, Repr

/-- `MarketDetail.handlePlaceBet` (lines 438–482).  `amount` is the
parse of the entered string (`none` for NaN).  Checks in source order:
NaN or `≤ 0` → invalid amount; `betAmount < (bet.base_price || 0)` →
below minimum (the message shows `bet.base_price || 10`);
`user.money < betAmount` → insufficient funds; otherwise the
`api.joinBet` request is issued. -/
def handlePlaceBet (userMoney basePrice : ℚ) (amount : Option ℚ)
    (prediction : String) : BetAction :=
  match amount with
  | none => .error .invalidAmount
  | some betAmount =>
    if betAmount ≤ 0 then .error .invalidAmount
    else if betAmount < basePrice then
      .error (.belowMinimum (if basePrice = 0 then 10 else basePrice))
    else if userMoney < betAmount then .error .insufficientFunds
    else .request betAmount prediction

/-- The stake-rejection reasons of §4.2 / §6 of the spec. -/
inductive StakeError where
  | invalidState
  | creatorCannotStake
  | belowMinimum
  | alreadyStaked
  | insufficientFunds
  deriving DecidableEq, Repr

/-- A market record as the stake operation sees it. -/
structure MarketState where
  status : String
  creator : String
  basePrice : ℚ
  participants : List Participant
  pool : ℚ
  deriving Repr

/-- Modelled from the spec: the backend `join-bet` endpoint
(`recordStake`, §4.2) lives in the FastAPI `main.py`, which is not among
the frontend sources.  §4.2: the stake is rejected if the market is not
OPEN; if the user is the market creator; if the amount is below the
minimum stake; if the user already has a stake in this market; or if the
available balance is insufficient.  On success the stake is appended,
the pool increases and the balance is debited. -/
def recordStake (m : MarketState) (balance : ℚ) (user outcome : String)
    (amount : ℚ) : Except StakeError (MarketState × ℚ) :=
  if m.status ≠ "OPEN" then .error .invalidState
  else if user = m.creator then .error .creatorCannotStake
  else if amount < m.basePrice then .error .belowMinimum
  else if m.participants.any fun p => p.user == user then
    .error .alreadyStaked
  else if balance < amount then .error .insufficientFunds
  else
    .ok ({ m with
            participants := m.participants ++ [⟨user, outcome, amount⟩]
            pool := m.pool + amount },
          balance - amount)

/-- `MarketDetail`'s `hasBet` (line 555): whether the logged-in user
appears in the market's participant list (the place-bet button is
disabled and shows "Already Bet" when this holds, lines 1004–1012). -/
def hasBet (participants : List Participant) (userEmail : String) : Bool :=
  participants.any fun p => p.user == userEmail

/-! ## Dashboard partitioning -/

/-- A market record as the dashboard list filters see it. -/
structure FetchedBet where
  status : String
  creator : String
  deriving DecidableEq, Repr

/-- `PublicDashboard.fetchBets` (line 131): the "active" list. -/
def publicActive (bets : List FetchedBet) : List FetchedBet :=
  bets.filter fun b =>
    !(b.status == "RESULT_DECLARED") && !(b.status == "CLOSED")

/-- `PublicDashboard.fetchBets` (line 132): the "completed" list. -/
def publicCompleted (bets : List FetchedBet) : List FetchedBet :=
  bets.filter fun b => b.status == "RESULT_DECLARED" || b.status == "CLOSED"

/-- `PrivateDashboard.fetchData` (lines 219–223): the markets the user
did not create ("a bet is joined if you are not the creator"). -/
def privateAllJoined (bets : List FetchedBet) (userEmail : String) :
    List FetchedBet :=
  bets.filter fun b =>
    !(b.creator.toLower.trim == userEmail.toLower.trim)

/-- `PrivateDashboard.fetchData` (lines 226–228): completed joined bets. -/
def privateCompleted (bets : List FetchedBet) (userEmail : String) :
    List FetchedBet :=
  (privateAllJoined bets userEmail).filter fun b =>
    b.status == "RESULT_DECLARED" || b.status == "CLOSED"

/-- `PrivateDashboard.fetchData` (lines 229–231): active joined bets. -/
def privateJoined (bets : List FetchedBet) (userEmail : String) :
    List FetchedBet :=
  (privateAllJoined bets userEmail).filter fun b =>
    !(b.status == "RESULT_DECLARED") && !(b.status == "CLOSED")

/-- A terminal market status, as the spec words it. -/
def isTerminalStatus (s : String) : Prop :=
  s = "RESULT_DECLARED" ∨ s = "CLOSED"

instance (s : String) : Decidable (isTerminalStatus s) := by
  unfold isTerminalStatus
  infer_instance

end BetHub

open BetHub

/-- **C4.** For every positive requested loan amount, if the current loan
balance plus the requested amount exceeds the borrowing limit, the borrow
handler stops with the loan-limit-exceeded error and never issues the
`applyLoan` request (so the loan balance is unchanged). -/
theorem c4_borrow_over_limit_rejected
    (userLoan userTrust borrowAmount : ℚ) (hpos : 0 < borrowAmount)
    (hover : userLoan + borrowAmount > loanLimit userTrust) :
    handleBorrow userLoan userTrust borrowAmount =
      .error "Loan limit exceeded" := by
  unfold handleBorrow
  rw [if_neg (not_le.2 hpos), if_pos hover]

/-- Witness for C4: trust 0 gives limit 0, so borrowing 1 with no
outstanding loan is rejected. -/
theorem c4_borrow_over_limit_rejected_witness :
    handleBorrow 0 0 1 = .error "Loan limit exceeded" :=
  c4_borrow_over_limit_rejected 0 0 1 (by norm_num)
    (by unfold loanLimit loanLimitMultiplier; norm_num)

/-- **C5.** With a non-negative balance (the ledger invariant), if the
repayment amount exceeds the available balance, the repay handler stops
with the insufficient-funds error and never issues the `repayLoan`
request (balance and loan unchanged). -/
theorem c5_repay_over_balance_rejected
    (userMoney repayAmount : ℚ) (hmoney : 0 ≤ userMoney)
    (hover : userMoney < repayAmount) :
    handleRepay userMoney repayAmount = .error "Insufficient funds" := by
  unfold handleRepay
  rw [if_neg (not_le.2 (lt_of_le_of_lt hmoney hover)), if_pos hover]

/-- Witness for C5: repaying 5 with balance 0 is rejected. -/
theorem c5_repay_over_balance_rejected_witness :
    handleRepay 0 5 = .error "Insufficient funds" :=
  c5_repay_over_balance_rejected 0 5 (by norm_num) (by norm_num)

/-- **C8.** The MAX button of the repay form prefills
`min(balance, loan)`: the prefilled amount never exceeds the balance and
never exceeds the loan. -/
theorem c8_max_button_min_of_balance_loan (userMoney userLoan : ℚ) :
    maxRepayPrefill userMoney userLoan = min userMoney userLoan ∧
    maxRepayPrefill userMoney userLoan ≤ userMoney ∧
    maxRepayPrefill userMoney userLoan ≤ userLoan := by
  have h : maxRepayPrefill userMoney userLoan = min userMoney userLoan := by
    unfold maxRepayPrefill
    rcases le_or_lt userMoney userLoan with h | h
    · rw [if_neg (not_lt.2 h), min_eq_left h]
    · rw [if_pos h, min_eq_right h.le]
  exact ⟨h, h ▸ min_le_left _ _, h ▸ min_le_right _ _⟩

/-- **C1.** For every trust score `t`, the borrowing limit computed by the
loan page equals `min(5000, 2500 * tierMultiplier(t))`, where
`tierMultiplier` maps `t < 50` to `0`, `[50,300)` to `0.2`, `[300,500)` to
`0.5`, `[500,700)` to `1.0`, `[700,850)` to `1.5` and `t ≥ 850` to `2.0`. -/
theorem c1_loan_limit_matches_tier_table (t : ℚ) :
    loanLimit t = min 5000 (2500 * specTierMultiplier t) := by
  have hm : loanLimitMultiplier t = specTierMultiplier t := by
    unfold loanLimitMultiplier specTierMultiplier
    rcases lt_or_le t 50 with h1 | h1
    · simp [h1]
    · rcases lt_or_le t 300 with h2 | h2
      · simp [not_lt.2 h1, h1, h2]
      · rcases lt_or_le t 500 with h3 | h3
        · simp [not_lt.2 h1, not_lt.2 h2, h2, h3]
        · rcases lt_or_le t 700 with h4 | h4
          · simp [not_lt.2 h1, not_lt.2 h2, not_lt.2 h3, h3, h4]
          · rcases lt_or_le t 850 with h5 | h5
            · simp [not_lt.2 h1, not_lt.2 h2, not_lt.2 h3, not_lt.2 h4, h4, h5]
            · simp [not_lt.2 h1, not_lt.2 h2, not_lt.2 h3, not_lt.2 h4, not_lt.2 h5]
  rw [loanLimit, hm, min_comm]

/-- **C2 (counterexample).** For the market with stakes 100 on "Yes" and
50 on "No" (pool 150), the spec's amount-based odds give "Yes" 67%,
but the public dashboard's `getStats` displays 50% for each outcome: it
divides participant *counts*, not stake amounts, by the total.  So the
claim fails for the public-dashboard statistics. -/
theorem c2_counterexample :
    getStats (.arr [⟨"a", "Yes", 100⟩, ⟨"b", "No", 50⟩]) (.arr ["Yes", "No"]) =
      [("Yes", 50), ("No", 50)] ∧
    specOddsPercent [⟨"a", "Yes", 100⟩, ⟨"b", "No", 50⟩] ["Yes", "No"] 150
      "Yes" = 67 ∧
    (50 : ℤ) ≠ 67 := by
  refine ⟨?_, ?_, by decide⟩
  · simp +decide [getStats, parsedLists, JsField.isBad, JsField.toList,
      List.filter]
    norm_num [jsRound]
  · simp +decide [specOddsPercent, List.filter]
    norm_num [jsRound]

/-- **C2 (amended).** The market-detail statistics match the spec: each
outcome's percentage is its summed stake divided by the pool total (as a
rounded percentage), with an equal `1/N` split when the pool is `0`.
The public-dashboard statistics instead display the rounded fraction of
*participants* predicting the outcome, and `0` for every outcome when
there are no participants. -/
theorem c2_market_detail_amount_based_public_dashboard_count_based
    (participants : List Participant) (outcomes : List String) (pool : ℚ)
    (pf : JsField Participant) (of : JsField String) (hpool : 0 ≤ pool) :
    ((outcomeStats participants outcomes pool).map fun s =>
        (s.outcome, s.percent)) =
      (outcomes.map fun o => (o, specOddsPercent participants outcomes pool o)) ∧
    getStats pf of =
      ((parsedLists pf of).2.map fun o =>
        (o, specCountPercent (parsedLists pf of).1 o)) := by
  constructor
  · rw [outcomeStats, List.map_map]
    refine List.map_congr_left fun o ho => ?_
    rcases lt_or_eq_of_le hpool with hp | hp
    · simp only [Function.comp_apply, specOddsPercent, if_pos hp,
        if_neg (ne_of_gt hp)]
    · have hlen : 0 < outcomes.length := List.length_pos.2 (List.ne_nil_of_mem ho)
      simp only [Function.comp_apply, specOddsPercent,
        if_neg (not_lt.2 (le_of_eq hp.symm)), if_pos hp.symm, if_pos hlen]
  · by_cases h : (parsedLists pf of).1.length = 0
    · simp [getStats, h, specCountPercent]
    · simp [getStats, h, specCountPercent, List.countP_eq_length_filter]

/-- **C10 (counterexample).** `getStats` is not total on arbitrary
market records: a participants field holding `'5'` or `'null'` — valid
JSON, not an array — skips the `catch`, and the body then throws a
`TypeError` at `participants.length`/`.filter` outside the `try`;
likewise an outcomes field parsing to a non-array throws at
`outcomes.map`.  At these inputs no statistics list is returned. -/
theorem c10_counterexample :
    getStatsChecked JsFieldV.strNonList (.arr ["Yes", "No"]) =
      .error .typeError ∧
    getStatsChecked (.arr []) JsFieldV.strNonList = .error .typeError :=
  ⟨rfl, rfl⟩

/-- **C10 (amended).** On every record whose participants and outcomes
fields are arrays, strings parsing to arrays, unparseable strings, or
absent, `getStats` is total: it returns exactly one entry per effective
outcome with a percentage between 0 and 100, falling back to `[]` /
`["Yes", "No"]` on a parse failure or a missing field (and the checked
semantics agrees with it there).  It is not total beyond that: a field
whose string parses to a non-array value escapes the `try`/`catch` and
makes `getStats` throw a `TypeError`. -/
theorem c10_stats_totality_scoped (pf : JsField Participant)
    (of : JsField String) (pfv : JsFieldV Participant)
    (ofv : JsFieldV String) :
    getStatsChecked pf.toV of.toV = .ok (getStats pf of) ∧
    ((getStats pf of).map Prod.fst = (parsedLists pf of).2) ∧
    (∀ e ∈ getStats pf of, 0 ≤ e.2 ∧ e.2 ≤ 100) ∧
    (pf.isBad = true ∨ of.isBad = true →
      parsedLists pf of = ([], ["Yes", "No"])) ∧
    (ofv.isBad = false →
      getStatsChecked .strNonList ofv = .error .typeError) ∧
    (pfv.isBad = false →
      getStatsChecked pfv .strNonList = .error .typeError) := by
  refine ⟨getStatsChecked_toV pf of, ?_, ?_, ?_, ?_, ?_⟩
  · simp only [getStats]
    split_ifs <;> (rw [List.map_map]; exact List.map_id _)
  · intro e he
    rw [getStats] at he
    by_cases h : (parsedLists pf of).1.length = 0
    · rw [if_pos h] at he
      obtain ⟨o, _, rfl⟩ := List.mem_map.1 he
      exact ⟨le_refl 0, by norm_num⟩
    · rw [if_neg h] at he
      obtain ⟨o, _, rfl⟩ := List.mem_map.1 he
      have htpos : 0 < ((parsedLists pf of).1.length : ℚ) := by
        exact_mod_cast Nat.pos_of_ne_zero h
      have hcle :
          (((parsedLists pf of).1.filter fun p => p.prediction == o).length : ℚ) ≤
            ((parsedLists pf of).1.length : ℚ) := by
        exact_mod_cast List.length_filter_le _ _
      refine ⟨jsRound_nonneg (by positivity), jsRound_le_hundred ?_⟩
      rw [div_mul_eq_mul_div, div_le_iff₀ htpos]
      linarith
  · intro h
    rw [parsedLists, if_pos]
    rcases h with h | h <;> simp [h]
  · intro h
    have hnl : (JsFieldV.strNonList : JsFieldV Participant).isBad = false := rfl
    unfold getStatsChecked
    rw [if_neg (by simp [hnl, h])]
    rfl
  · intro h
    have hnl : (JsFieldV.strNonList : JsFieldV String).isBad = false := rfl
    unfold getStatsChecked
    rw [if_neg (by simp [hnl, h])]
    cases pfv.toValue ([] : List Participant) <;> rfl

/-- Witness for the amended C10: concrete evaluations, via the theorem. -/
theorem c10_stats_totality_scoped_witness :
    (0 ≤ (0 : ℤ) ∧ (0 : ℤ) ≤ 100) ∧
    parsedLists (JsField.strBad : JsField Participant)
        (JsField.arr ["A"]) = ([], ["Yes", "No"]) ∧
    getStatsChecked JsFieldV.strNonList (.arr ["Yes"]) =
      .error .typeError :=
  ⟨(c10_stats_totality_scoped (.arr []) (.arr ["Yes"]) .absent
        (.arr ["Yes"])).2.2.1 ("Yes", 0) (by decide),
    (c10_stats_totality_scoped .strBad (.arr ["A"]) .absent
        (.arr ["Yes"])).2.2.2.1 (Or.inl rfl),
    (c10_stats_totality_scoped (.arr []) (.arr ["Yes"]) .absent
        (.arr ["Yes"])).2.2.2.2.1 rfl⟩

/-- Witness for the amended C2, at concrete inputs. -/
theorem c2_market_detail_amount_based_public_dashboard_count_based_witness :
    ((outcomeStats [⟨"a", "Yes", 100⟩, ⟨"b", "No", 50⟩] ["Yes", "No"] 150).map
        fun s => (s.outcome, s.percent)) =
      (["Yes", "No"].map fun o =>
        (o, specOddsPercent [⟨"a", "Yes", 100⟩, ⟨"b", "No", 50⟩]
              ["Yes", "No"] 150 o)) ∧
    getStats (.arr []) (.arr ["Yes"]) =
      ((parsedLists (.arr []) (.arr ["Yes"])).2.map fun o =>
        (o, specCountPercent (parsedLists (.arr []) (.arr ["Yes"])).1 o)) :=
  c2_market_detail_amount_based_public_dashboard_count_based _ _ 150 _ _
    (by norm_num)

/-- **C3 (counterexample).** In the spec's own scenario (100 staked on
"Yes", 50 on "No", "Yes" wins), the settlement winner amount is
`100 + (100/100)·(0.6·50) = 130`, yet the pool row's potential return
and the quick-bet estimated payout both show `(stake/winPool)·pool =
150`.  The client figures do not equal the settlement winner amount. -/
theorem c3_counterexample :
    potentialReturn [⟨"a@x", "Yes", 100⟩, ⟨"b@x", "No", 50⟩] "a@x" 150 = 150 ∧
    estPayout 100 0 50 = 150 ∧
    winnerPayout 100 100 50 = 130 ∧
    loserRefund 50 = 20 ∧
    (150 : ℚ) ≠ 130 := by
  refine ⟨?_, ?_, ?_, ?_, by norm_num⟩
  · simp +decide [potentialReturn, stakeOnOutcome, List.find?, List.filter]
  · norm_num [estPayout]
  · norm_num [winnerPayout]
  · norm_num [loserRefund]

/-- **C3 (amended).** Settlement (modelled from spec §4.3) pays each
winner their stake plus `(stake/winPool)·(0.6·losePool)` and refunds
each loser 40% of their stake.  The client's per-participant figures do
not equal this amount: for every market in which the user has a stake
(with a positive total on their outcome), the pool-row potential return
is `(stake / stake-on-the-user's-outcome) · pool`, and the quick-bet
estimated payout is `(betAmount / newOutcomePool) · newTotalPool`; with
the market's pool split into the user's winning side and a losing pool,
both figures strictly exceed the settlement winner amount whenever the
losing pool is nonempty. -/
theorem c3_client_return_exceeds_settlement_payout
    (participants : List Participant) (userEmail : String)
    (poolTotal losePool betAmount outcomePool : ℚ) (ub : Participant)
    (hfind : (participants.find? fun p =>
        p.user.toLower.trim == userEmail.toLower.trim) = some ub)
    (hside : 0 < stakeOnOutcome participants ub.prediction)
    (hstake : 0 < ub.amount) (hlose : 0 < losePool)
    (hbet : 0 < betAmount) (hout : 0 ≤ outcomePool) :
    potentialReturn participants userEmail poolTotal =
      ub.amount / stakeOnOutcome participants ub.prediction * poolTotal ∧
    winnerPayout ub.amount (stakeOnOutcome participants ub.prediction)
        losePool <
      potentialReturn participants userEmail
        (stakeOnOutcome participants ub.prediction + losePool) ∧
    winnerPayout betAmount (outcomePool + betAmount) losePool <
      estPayout betAmount outcomePool (outcomePool + losePool) ∧
    loserRefund losePool = 2/5 * losePool := by
  have hform : ∀ pool : ℚ, potentialReturn participants userEmail pool =
      ub.amount / stakeOnOutcome participants ub.prediction * pool := by
    intro pool
    unfold potentialReturn
    rw [hfind]
    show (if 0 < stakeOnOutcome participants ub.prediction then
          ub.amount / stakeOnOutcome participants ub.prediction * pool
        else 0) =
      ub.amount / stakeOnOutcome participants ub.prediction * pool
    exact if_pos hside
  refine ⟨hform poolTotal, ?_, ?_, rfl⟩
  · rw [hform]
    exact winnerPayout_lt_wholePoolShare hstake hside hlose
  · have hW : 0 < outcomePool + betAmount :=
      add_pos_of_nonneg_of_pos hout hbet
    have hEst : estPayout betAmount outcomePool (outcomePool + losePool) =
        betAmount / (outcomePool + betAmount) *
          ((outcomePool + betAmount) + losePool) := by
      unfold estPayout
      rw [if_neg (ne_of_gt hW)]
      ring
    rw [hEst]
    exact winnerPayout_lt_wholePoolShare hbet hW hlose

/-- Witness for the amended C3: the spec's §8 scenario (100 on "Win",
50 on "Lose"), plus a fresh quick-bet of 30 into an empty outcome. -/
theorem c3_client_return_exceeds_settlement_payout_witness :
    (potentialReturn [⟨"w@x", "Win", 100⟩, ⟨"l@x", "Lose", 50⟩] "w@x" 150 =
      100 / stakeOnOutcome [⟨"w@x", "Win", 100⟩, ⟨"l@x", "Lose", 50⟩] "Win" *
        150) ∧
    (winnerPayout 100
        (stakeOnOutcome [⟨"w@x", "Win", 100⟩, ⟨"l@x", "Lose", 50⟩] "Win")
        50 <
      potentialReturn [⟨"w@x", "Win", 100⟩, ⟨"l@x", "Lose", 50⟩] "w@x"
        (stakeOnOutcome [⟨"w@x", "Win", 100⟩, ⟨"l@x", "Lose", 50⟩] "Win" +
          50)) ∧
    (winnerPayout 30 (0 + 30) 50 < estPayout 30 0 (0 + 50)) ∧
    loserRefund 50 = 2/5 * 50 :=
  c3_client_return_exceeds_settlement_payout
    [⟨"w@x", "Win", 100⟩, ⟨"l@x", "Lose", 50⟩] "w@x" 150 50 30 0
    ⟨"w@x", "Win", 100⟩ (by simp [List.find?])
    (by simp +decide [stakeOnOutcome, List.filter])
    (by norm_num) (by norm_num) (by norm_num) (by norm_num)

/-- **C6 (counterexample).** A stake attempt of `0` on a market with
minimum stake `10` is below the minimum, but the handler rejects it with
the invalid-amount error, not the below-minimum (or insufficient-funds)
error, so "rejected with the corresponding error" fails as stated. -/
theorem c6_counterexample :
    handlePlaceBet 100 10 (some 0) "Yes" = .error .invalidAmount ∧
    BetAction.error BetError.invalidAmount ≠
      BetAction.error (BetError.belowMinimum 10) ∧
    BetAction.error BetError.invalidAmount ≠
      BetAction.error BetError.insufficientFunds := by
  refine ⟨?_, by decide, by decide⟩
  norm_num [handlePlaceBet]

/-- **C6 (amended).** For every *positive* entered amount: an amount
below the market's minimum stake is rejected with the below-minimum
error, and an amount at or above the minimum but exceeding the user's
balance is rejected with the insufficient-funds error; in both cases the
handler returns before `api.joinBet`, so no request is sent and no
balance changes.  (Non-positive or unparseable amounts are rejected even
earlier, with the invalid-amount error.) -/
theorem c6_stake_rejections (userMoney basePrice a : ℚ) (prediction : String)
    (ha : 0 < a) :
    (a < basePrice →
      handlePlaceBet userMoney basePrice (some a) prediction =
        .error (.belowMinimum basePrice)) ∧
    (basePrice ≤ a → userMoney < a →
      handlePlaceBet userMoney basePrice (some a) prediction =
        .error .insufficientFunds) := by
  constructor
  · intro hmin
    simp only [handlePlaceBet]
    rw [if_neg (not_le.2 ha), if_pos hmin,
      if_neg (ne_of_gt (lt_trans ha hmin))]
  · intro hmin hfunds
    simp only [handlePlaceBet]
    rw [if_neg (not_le.2 ha), if_neg (not_lt.2 hmin), if_pos hfunds]

/-- Witness for the amended C6. -/
theorem c6_stake_rejections_witness :
    handlePlaceBet 3 10 (some 5) "Yes" = .error (.belowMinimum 10) :=
  (c6_stake_rejections 3 10 5 "Yes" (by norm_num)).1 (by norm_num)

/-- **C7.** A user may hold at most one stake per market: if the user
already appears in the market's participant list, the stake operation
never succeeds (so the balance is never debited), and — when the other
preconditions hold (market OPEN, not the creator, amount at or above the
minimum) — it fails with the `AlreadyStaked` error; the market-detail
page's `hasBet` flag (which disables the place-bet button) is exactly
this membership test. -/
theorem c7_at_most_one_stake_per_market (m : MarketState) (balance : ℚ)
    (user outcome : String) (amount : ℚ)
    (hmem : (m.participants.any fun p => p.user == user) = true) :
    (∀ r, recordStake m balance user outcome amount ≠ .ok r) ∧
    (m.status = "OPEN" → user ≠ m.creator → m.basePrice ≤ amount →
      recordStake m balance user outcome amount = .error .alreadyStaked) ∧
    hasBet m.participants user = true := by
  refine ⟨?_, ?_, hmem⟩
  · intro r
    unfold recordStake
    split_ifs <;> simp_all
  · intro hopen hcreator hmin
    unfold recordStake
    rw [if_neg (not_ne_iff.2 hopen), if_neg hcreator,
      if_neg (not_lt.2 hmin), if_pos hmem]

/-- Witness for C7: a second stake by `u@x` is rejected. -/
theorem c7_at_most_one_stake_per_market_witness :
    recordStake ⟨"OPEN", "c@x", 10, [⟨"u@x", "Yes", 20⟩], 20⟩ 100
        "u@x" "No" 15 = .error .alreadyStaked :=
  (c7_at_most_one_stake_per_market _ 100 "u@x" "No" 15 (by decide)).2.1
    rfl (by decide) (by norm_num)

/-- **C9 (counterexample).** A fetched market created by the user with
status OPEN is placed in *neither* of the private dashboard's two lists:
`fetchData` first removes the user's own creations, so the
joined/completed split does not partition the fetched markets. -/
theorem c9_counterexample :
    privateJoined [⟨"OPEN", "me@x"⟩] "me@x" = [] ∧
    privateCompleted [⟨"OPEN", "me@x"⟩] "me@x" = [] ∧
    (⟨"OPEN", "me@x"⟩ : FetchedBet) ∈ ([⟨"OPEN", "me@x"⟩] : List FetchedBet) ∧
    ¬ isTerminalStatus "OPEN" := by
  refine ⟨?_, ?_, List.mem_singleton_self _, by decide⟩ <;>
    simp [privateJoined, privateCompleted, privateAllJoined]

/-- **C9 (amended).** The public dashboard's two lists partition the
fetched markets, with membership in the completed list exactly for
terminal status (RESULT_DECLARED or CLOSED); the private dashboard's
joined/completed lists partition only the fetched markets the user did
not create (their own creations go to a separate creations list). -/
theorem c9_dashboard_partition (bets : List FetchedBet) (b : FetchedBet)
    (u : String) (hb : b ∈ bets) :
    ((b ∈ publicCompleted bets ↔ isTerminalStatus b.status) ∧
     (b ∈ publicActive bets ↔ ¬ isTerminalStatus b.status) ∧
     ¬(b ∈ publicActive bets ∧ b ∈ publicCompleted bets)) ∧
    (b.creator.toLower.trim ≠ u.toLower.trim →
      ((b ∈ privateCompleted bets u ↔ isTerminalStatus b.status) ∧
       (b ∈ privateJoined bets u ↔ ¬ isTerminalStatus b.status) ∧
       ¬(b ∈ privateJoined bets u ∧ b ∈ privateCompleted bets u))) := by
  constructor
  · simp [publicActive, publicCompleted, List.mem_filter, hb,
      isTerminalStatus]
  · intro hc
    simp [privateJoined, privateCompleted, privateAllJoined,
      List.mem_filter, hb, hc, isTerminalStatus]

/-- Witness for the amended C9. -/
theorem c9_dashboard_partition_witness :
    (⟨"OPEN", "x@y"⟩ : FetchedBet) ∈ publicActive [⟨"OPEN", "x@y"⟩] :=
  ((c9_dashboard_partition [⟨"OPEN", "x@y"⟩] ⟨"OPEN", "x@y"⟩ "z@w"
      (List.mem_singleton_self _)).1.2.1).2 (by decide)
